import Mathlib

/-!
Verification of the knowledge-ingestion and RAG answer pipeline of the
YuanziWuli backend (`backend/app/kb/chunker.py`, `backend/app/kb/vectordb.py`,
`backend/app/services/rag_service.py`, `backend/app/services/kb_service.py`).

Strings are modelled as `List Char` (Python `len`, slicing and `strip` act on
characters), Python floats as `ℚ` (exact arithmetic; the programs only use
`+ * / min max` on small decimal constants), and Python ints as `Nat`/`Int`.
-/

namespace YuanziWuli

/-- Python `text[s:e]` for `0 ≤ s ≤ e` (clipped at the end of the list). -/
def pySlice (l : List Char) (s e : Nat) : List Char :=
  (l.drop s).take (e - s)

/-- Python `str.strip()`: drop whitespace from both ends. -/
def pyStrip (l : List Char) : List Char :=
  ((l.dropWhile Char.isWhitespace).reverse.dropWhile Char.isWhitespace).reverse

/-- Python `hay.rfind(needle, s, e)`: the largest index `i` with `s ≤ i`,
`i + len(needle) ≤ min (e, len hay)` and `needle` occurring at `i`; `-1` when
there is none. -/
def pyRfind (hay needle : List Char) (s e : Nat) : Int :=
  let e' := min e hay.length
  let cands := (List.range (hay.length + 1)).filter
    (fun i => decide (s ≤ i) && decide (i + needle.length ≤ e')
      && needle.isPrefixOf (hay.drop i))
  match cands.getLast? with
  | some i => (i : Int)
  | none => -1

/-- The sentence-ending markers of `TextChunker._find_sentence_boundary`
(`sentence_endings` in the source; `'\n\n'` is a two-character string). -/
def sentenceEndings : List (List Char) :=
  [['。'], ['！'], ['？'], ['.'], ['!'], ['?'], ['\n', '\n']]

/-- One step of the `for ending in sentence_endings` loop of
`TextChunker._find_sentence_boundary`: update `best_pos` when the found
occurrence is nearer to `preferred_end` than the current best. -/
def fsbStep (text : List Char) (start pe : Nat) (ss se : Nat)
    (best : Int) (ending : List Char) : Int :=
  let pos := pyRfind text ending ss se
  if pos > (start : Int) ∧ |pos - (pe : Int)| < |best - (pe : Int)| then
    pos + ending.length
  else
    best

/-- `TextChunker._find_sentence_boundary(text, start, preferred_end)`.
`search_start = max(start, preferred_end - 100)` agrees with the Python
expression because `start ≥ 0` makes truncated subtraction harmless. -/
def findSentenceBoundary (text : List Char) (start pe : Nat) : Int :=
  let ss := max start (pe - 100)
  let se := min text.length (pe + 100)
  sentenceEndings.foldl (fsbStep text start pe ss se) (pe : Int)

/-- The cursor advance of `TextChunker._split_text_with_overlap`:
`start = max(start + 1, end - overlap)`.  On `Nat` the truncated
`end - overlap` coincides with Python because a negative Python value is
absorbed by the `max` exactly as `0` is. -/
def splitNextStart (ov start e : Nat) : Nat :=
  max (start + 1) (e - ov)

/-- The cut point chosen by one iteration of the `while` loop of
`TextChunker._split_text_with_overlap`: `end = start + chunk_size`, snapped to
the sentence boundary when `end < len(text)` and the boundary lies after
`start`. -/
def splitCutEnd (cs : Nat) (text : List Char) (start : Nat) : Nat :=
  let e0 := start + cs
  if e0 < text.length then
    let sb := findSentenceBoundary text start e0
    if (start : Int) < sb then sb.toNat else e0
  else e0

/-- The `while start < len(text)` loop of
`TextChunker._split_text_with_overlap`, instrumented with the number of
iterations.  `fuel` is a structural-recursion bound; `text.length` iterations
always suffice (`splitLoopAux_fuel` below), so the fuel branch is dead code at
the call site in `splitTextWithOverlap`. -/
def splitLoopAux (cs ov : Nat) (text : List Char) :
    Nat → Nat → List (List Char) × Nat
  | 0, _ => ([], 0)
  | fuel + 1, start =>
    if start < text.length then
      let e := splitCutEnd cs text start
      let chunk := pyStrip (pySlice text start e)
      if text.length ≤ e then
        (if chunk = [] then [] else [chunk], 1)
      else
        let rest := splitLoopAux cs ov text fuel (splitNextStart ov start e)
        ((if chunk = [] then rest.1 else chunk :: rest.1), rest.2 + 1)
    else ([], 0)

/-- `TextChunker._split_text_with_overlap(text)` with `chunk_size = cs` and
`overlap = ov`. -/
def splitTextWithOverlap (cs ov : Nat) (text : List Char) : List (List Char) :=
  if text.length ≤ cs then [text]
  else (splitLoopAux cs ov text text.length 0).1

/-- The metadata dictionary attached to a `TextChunk`; the optional fields
model the keys that are present only for some chunk types. -/
structure ChunkMeta where
  sectionLabel : List Char := []
  page : Option Nat := none
  slide : Option Nat := none
  paragraph : Option Nat := none
  chunkType : List Char := []
  part : Option Nat := none
deriving DecidableEq, Repr

/-- `TextChunk` of `chunker.py`. -/
structure TextChunk where
  index : Nat
  text : List Char
  metadata : ChunkMeta
  startOffset : Nat
  endOffset : Nat
deriving DecidableEq, Repr

/-- One entry of a parsed pdf's `content` list. -/
structure PageInfo where
  text : List Char
  page : Nat
  sectionLabel : List Char
deriving DecidableEq, Repr

/-- One entry of a parsed docx/txt `content` list. -/
structure ParaInfo where
  text : List Char
  paragraph : Nat
  sectionLabel : List Char
deriving DecidableEq, Repr

/-- One entry of a parsed pptx `content` list. -/
structure SlideInfo where
  text : List Char
  slide : Nat
  sectionLabel : List Char
deriving DecidableEq, Repr

/-- One entry of a parsed markdown `content` list. -/
structure SectionInfo where
  text : List Char
  sectionLabel : List Char
deriving DecidableEq, Repr

/-- A parsed document: the `metadata.type` tag together with the content list
of the corresponding shape.  `docx` and `txt` both use the paragraph shape;
`raw` is the fallback branch of `chunk_document` that chunks `raw_text`. -/
inductive ParsedDoc where
  | pdf (content : List PageInfo)
  | paragraphs (content : List ParaInfo)
  | slides (content : List SlideInfo)
  | markdown (content : List SectionInfo)
  | raw (rawText : List Char)
deriving DecidableEq, Repr

/-- Python's `for i, chunk_text in enumerate(parts)` loops that build one
`TextChunk` per part. -/
def enumChunks (f : Nat → List Char → TextChunk) : Nat → List (List Char) → List TextChunk
  | _, [] => []
  | i, t :: ts => f i t :: enumChunks f (i + 1) ts

/-- The per-page loop of `TextChunker._chunk_pdf_content`; `idx` is the
running `chunk_index`. -/
def chunkPdfGo (cs ov : Nat) : List PageInfo → Nat → List TextChunk
  | [], _ => []
  | pg :: rest, idx =>
    if pg.text.length ≤ cs then
      ⟨idx, pg.text,
        { sectionLabel := pg.sectionLabel, page := some pg.page,
          chunkType := "page".toList }, 0, pg.text.length⟩
        :: chunkPdfGo cs ov rest (idx + 1)
    else
      let parts := splitTextWithOverlap cs ov pg.text
      enumChunks (fun i t =>
        ⟨idx + i, t,
          { sectionLabel := pg.sectionLabel, page := some pg.page,
            chunkType := "page_part".toList, part := some (i + 1) }, 0, t.length⟩)
        0 parts
      ++ chunkPdfGo cs ov rest (idx + parts.length)

/-- The mutable state of `TextChunker._chunk_paragraph_content`:
the accumulated chunk list, the running `chunk_index`, `current_chunk`,
`current_section` and `current_metadata`. -/
structure ParaState where
  chunks : List TextChunk
  idx : Nat
  cur : List Char
  curSection : List Char
  curMeta : ChunkMeta
deriving DecidableEq, Repr

/-- The section-change flush of `_chunk_paragraph_content`: a new section with
a non-empty running buffer emits the buffer (with the old metadata) first. -/
def paraSectionFlush (p : ParaInfo) (st : ParaState) : ParaState :=
  if p.sectionLabel ≠ st.curSection ∧ st.cur ≠ [] then
    { st with
      chunks := st.chunks ++ [⟨st.idx, pyStrip st.cur, st.curMeta, 0, st.cur.length⟩],
      idx := st.idx + 1, cur := [] }
  else st

/-- The `current_metadata` assigned for a paragraph. -/
def paraMeta (p : ParaInfo) : ChunkMeta :=
  { sectionLabel := p.sectionLabel, paragraph := some p.paragraph,
    chunkType := "paragraph".toList }

/-- The size-overflow flush of `_chunk_paragraph_content`: a non-empty running
buffer is emitted (with the already-updated metadata) before the oversized
paragraph is handled. -/
def paraBufferFlush (meta : ChunkMeta) (st : ParaState) : ParaState :=
  if st.cur ≠ [] then
    { st with
      chunks := st.chunks ++ [⟨st.idx, pyStrip st.cur, meta, 0, st.cur.length⟩],
      idx := st.idx + 1 }
  else st

/-- One iteration of the `for para_info in content` loop of
`TextChunker._chunk_paragraph_content`. -/
def paraStep (cs ov : Nat) (p : ParaInfo) (st : ParaState) : ParaState :=
  let st1 := paraSectionFlush p st
  let meta := paraMeta p
  if cs < (st1.cur ++ '\n' :: p.text).length then
    -- adding the paragraph would overflow: flush, then split or restart
    let st2 := paraBufferFlush meta st1
    if cs < p.text.length then
      let parts := splitTextWithOverlap cs ov p.text
      { chunks := st2.chunks ++ enumChunks (fun i t =>
          ⟨st2.idx + i, t, { meta with part := some (i + 1) }, 0, t.length⟩) 0 parts,
        idx := st2.idx + parts.length, cur := [],
        curSection := p.sectionLabel, curMeta := meta }
    else
      { chunks := st2.chunks, idx := st2.idx, cur := p.text,
        curSection := p.sectionLabel, curMeta := meta }
  else
    { chunks := st1.chunks, idx := st1.idx,
      cur := if st1.cur ≠ [] then st1.cur ++ '\n' :: p.text else p.text,
      curSection := p.sectionLabel, curMeta := meta }

/-- The loop of `TextChunker._chunk_paragraph_content` followed by the final
flush of a non-empty running buffer. -/
def chunkParagraphGo (cs ov : Nat) : List ParaInfo → ParaState → List TextChunk
  | [], st =>
    if st.cur ≠ [] then
      st.chunks ++ [⟨st.idx, pyStrip st.cur, st.curMeta, 0, st.cur.length⟩]
    else st.chunks
  | p :: rest, st => chunkParagraphGo cs ov rest (paraStep cs ov p st)

/-- The per-slide loop of `TextChunker._chunk_slide_content`: a fitting slide
is appended with `index = i` (its position in `content`), a split slide's
parts with `index = len(chunks)` at the moment of appending. -/
def chunkSlideGo (cs ov : Nat) : List SlideInfo → Nat → List TextChunk → List TextChunk
  | [], _, acc => acc
  | s :: rest, i, acc =>
    if s.text.length ≤ cs then
      chunkSlideGo cs ov rest (i + 1)
        (acc ++ [⟨i, s.text,
          { sectionLabel := s.sectionLabel, slide := some s.slide,
            chunkType := "slide".toList }, 0, s.text.length⟩])
    else
      let parts := splitTextWithOverlap cs ov s.text
      chunkSlideGo cs ov rest (i + 1)
        (acc ++ enumChunks (fun j t =>
          ⟨acc.length + j, t,
            { sectionLabel := s.sectionLabel, slide := some s.slide,
              chunkType := "slide_part".toList, part := some (j + 1) }, 0, t.length⟩)
          0 parts)

/-- The per-section loop of `TextChunker._chunk_markdown_content`. -/
def chunkMarkdownGo (cs ov : Nat) : List SectionInfo → Nat → List TextChunk
  | [], _ => []
  | sec :: rest, idx =>
    if sec.text.length ≤ cs then
      ⟨idx, sec.text,
        { sectionLabel := sec.sectionLabel, chunkType := "section".toList },
        0, sec.text.length⟩
        :: chunkMarkdownGo cs ov rest (idx + 1)
    else
      let parts := splitTextWithOverlap cs ov sec.text
      enumChunks (fun i t =>
        ⟨idx + i, t,
          { sectionLabel := sec.sectionLabel, chunkType := "section_part".toList,
            part := some (i + 1) }, 0, t.length⟩) 0 parts
      ++ chunkMarkdownGo cs ov rest (idx + parts.length)

/-- `TextChunker._chunk_raw_text`. -/
def chunkRawText (cs ov : Nat) (text : List Char) : List TextChunk :=
  enumChunks (fun i t =>
    ⟨i, t,
      { sectionLabel := "文本块".toList ++ (toString (i + 1)).toList,
        chunkType := "raw".toList }, 0, t.length⟩)
    0 (splitTextWithOverlap cs ov text)

/-- `TextChunker.chunk_document`, dispatching on the document-type tag. -/
def chunkDocument (cs ov : Nat) : ParsedDoc → List TextChunk
  | .pdf content => chunkPdfGo cs ov content 0
  | .paragraphs content => chunkParagraphGo cs ov content ⟨[], 0, [], [], {}⟩
  | .slides content => chunkSlideGo cs ov content 0 []
  | .markdown content => chunkMarkdownGo cs ov content 0
  | .raw text => chunkRawText cs ov text

lemma pySlice_length_le (l : List Char) (s e : Nat) :
    (pySlice l s e).length ≤ e - s := by
  simp [pySlice]

lemma pyStrip_length_le (l : List Char) : (pyStrip l).length ≤ l.length := by
  unfold pyStrip
  have h1 := (List.dropWhile_sublist (l := l) (p := Char.isWhitespace)).length_le
  have h2 := (List.dropWhile_sublist
    (l := (l.dropWhile Char.isWhitespace).reverse)
    (p := Char.isWhitespace)).length_le
  simp only [List.length_reverse] at h2 ⊢
  omega

/-- `_find_sentence_boundary` always returns `preferred_end`: its update
condition compares `abs(pos - preferred_end)` against
`abs(best_pos - preferred_end)`, which is `0` for the initial
`best_pos = preferred_end`, so no candidate is ever accepted. -/
lemma findSentenceBoundary_eq (text : List Char) (start pe : Nat) :
    findSentenceBoundary text start pe = pe := by
  simp only [findSentenceBoundary, sentenceEndings, List.foldl]
  have h : ∀ ss se ending, fsbStep text start pe ss se (pe : Int) ending = pe := by
    intro ss se ending
    simp only [fsbStep]
    rw [if_neg]
    rintro ⟨-, h2⟩
    simp only [sub_self, abs_zero] at h2
    have := abs_nonneg (pyRfind text ending ss se - (pe : Int))
    omega
  simp [h]

/-- Consequently every cut is exactly `chunk_size` wide. -/
lemma splitCutEnd_eq (cs : Nat) (text : List Char) (start : Nat) :
    splitCutEnd cs text start = start + cs := by
  simp only [splitCutEnd, findSentenceBoundary_eq]
  split
  · split
    · omega
    · rfl
  · rfl

/-- Each loop iteration strictly advances the cursor. -/
lemma splitNextStart_gt (ov start e : Nat) : start < splitNextStart ov start e :=
  lt_of_lt_of_le (Nat.lt_succ_self start) (le_max_left _ _)

/-- Any fuel of at least `text.length - start` computes the loop's fixpoint:
the loop terminates within that many iterations. -/
lemma splitLoopAux_fuel (cs ov : Nat) (text : List Char) :
    ∀ f1 f2 start, text.length - start ≤ f1 → text.length - start ≤ f2 →
      splitLoopAux cs ov text f1 start = splitLoopAux cs ov text f2 start := by
  intro f1
  induction f1 with
  | zero =>
    intro f2 start h1 _
    have hs : ¬ start < text.length := by omega
    cases f2 with
    | zero => rfl
    | succ f2 => simp [splitLoopAux, hs]
  | succ f1 ih =>
    intro f2 start h1 h2
    by_cases hs : start < text.length
    · have hf2 : 0 < f2 := by omega
      obtain ⟨f2', rfl⟩ : ∃ k, f2 = k + 1 := ⟨f2 - 1, by omega⟩
      simp only [splitLoopAux, hs, if_true]
      have hnext := splitNextStart_gt ov start (splitCutEnd cs text start)
      rw [ih f2' (splitNextStart ov start (splitCutEnd cs text start))
        (by omega) (by omega)]
    · cases f2 with
      | zero => simp [splitLoopAux, hs]
      | succ f2 => simp [splitLoopAux, hs]

/-- With `overlap < chunk_size` the loop performs at most
`(len(text) - start) / (chunk_size - overlap) + 1` iterations. -/
lemma splitLoopAux_count_le (cs ov : Nat) (text : List Char) (hov : ov < cs) :
    ∀ fuel start, text.length - start ≤ fuel →
      (splitLoopAux cs ov text fuel start).2
        ≤ (text.length - start) / (cs - ov) + 1 := by
  intro fuel
  induction fuel with
  | zero =>
    intro start _
    simp [splitLoopAux]
  | succ fuel ih =>
    intro start hfuel
    by_cases hs : start < text.length
    · simp only [splitLoopAux, hs, if_true, splitCutEnd_eq]
      by_cases hend : text.length ≤ start + cs
      · simp [hend]
      · simp only [hend, if_false]
        have hd : 1 ≤ cs - ov := by omega
        have hnext : splitNextStart ov start (start + cs) = start + (cs - ov) := by
          simp only [splitNextStart]
          omega
        rw [hnext]
        have hrec := ih (start + (cs - ov)) (by omega)
        have heq : text.length - (start + (cs - ov))
            = text.length - start - (cs - ov) := by omega
        rw [heq] at hrec
        have hdiv : (text.length - start) / (cs - ov)
            = (text.length - start - (cs - ov)) / (cs - ov) + 1 :=
          Nat.div_eq_sub_div (by omega) (by omega)
        omega
    · have hred : splitLoopAux cs ov text (fuel + 1) start = ([], 0) := by
        simp [splitLoopAux, hs]
      rw [hred]
      exact Nat.zero_le _

/-- Every string produced by the loop has at most `chunk_size` characters. -/
lemma splitLoopAux_mem_length (cs ov : Nat) (text : List Char) :
    ∀ fuel start c, c ∈ (splitLoopAux cs ov text fuel start).1 →
      c.length ≤ cs := by
  intro fuel
  induction fuel with
  | zero => intro start c hc; simp [splitLoopAux] at hc
  | succ fuel ih =>
    intro start c hc
    have hlen : (pyStrip (pySlice text start (start + cs))).length ≤ cs := by
      have h1 := pyStrip_length_le (pySlice text start (start + cs))
      have h2 := pySlice_length_le text start (start + cs)
      omega
    by_cases hs : start < text.length
    · simp only [splitLoopAux, hs, if_true, splitCutEnd_eq] at hc
      by_cases hend : text.length ≤ start + cs
      · simp only [hend, if_true] at hc
        split at hc
        · simp at hc
        · rw [List.mem_singleton] at hc
          exact hc ▸ hlen
      · simp only [hend, if_false] at hc
        split at hc
        · exact ih _ c hc
        · rcases List.mem_cons.1 hc with rfl | hc
          · exact hlen
          · exact ih _ c hc
    · simp [splitLoopAux, hs] at hc

/-- Every string produced by `_split_text_with_overlap` on an input that needs
splitting has at most `chunk_size` characters; a fitting input is returned
whole. -/
lemma splitTextWithOverlap_mem_length (cs ov : Nat) (text : List Char) :
    ∀ c ∈ splitTextWithOverlap cs ov text, c.length ≤ cs := by
  intro c hc
  unfold splitTextWithOverlap at hc
  split at hc
  · next h => rw [List.mem_singleton] at hc; exact hc ▸ h
  · exact splitLoopAux_mem_length cs ov text _ _ c hc

lemma enumChunks_mem {f : Nat → List Char → TextChunk} :
    ∀ i ts c, c ∈ enumChunks f i ts → ∃ j t, t ∈ ts ∧ c = f j t := by
  intro i ts
  induction ts generalizing i with
  | nil => intro c hc; simp [enumChunks] at hc
  | cons t ts ih =>
    intro c hc
    simp only [enumChunks, List.mem_cons] at hc
    rcases hc with rfl | hc
    · exact ⟨i, t, List.mem_cons_self t ts, rfl⟩
    · obtain ⟨j, u, hu, rfl⟩ := ih (i + 1) c hc
      exact ⟨j, u, List.mem_cons_of_mem _ hu, rfl⟩

lemma chunkPdfGo_len (cs ov : Nat) :
    ∀ content idx c, c ∈ chunkPdfGo cs ov content idx → c.text.length ≤ cs := by
  intro content
  induction content with
  | nil => intro idx c hc; simp [chunkPdfGo] at hc
  | cons pg rest ih =>
    intro idx c hc
    by_cases h : pg.text.length ≤ cs
    · simp only [chunkPdfGo, h, if_true, List.mem_cons] at hc
      rcases hc with rfl | hc
      · exact h
      · exact ih _ c hc
    · simp only [chunkPdfGo, h, if_false, List.mem_append] at hc
      rcases hc with hc | hc
      · obtain ⟨j, t, ht, rfl⟩ := enumChunks_mem _ _ _ hc
        exact splitTextWithOverlap_mem_length cs ov pg.text t ht
      · exact ih _ c hc

/-- The invariant of `_chunk_paragraph_content`: every emitted chunk and the
running buffer stay within `chunk_size`. -/
def ParaInv (cs : Nat) (st : ParaState) : Prop :=
  (∀ c ∈ st.chunks, c.text.length ≤ cs) ∧ st.cur.length ≤ cs

lemma paraSectionFlush_inv {cs : Nat} (p : ParaInfo) (st : ParaState)
    (h : ParaInv cs st) : ParaInv cs (paraSectionFlush p st) := by
  obtain ⟨hchunks, hcur⟩ := h
  unfold paraSectionFlush
  split
  · refine ⟨?_, by simp⟩
    intro c hc
    rcases List.mem_append.1 hc with hc | hc
    · exact hchunks c hc
    · rw [List.mem_singleton] at hc
      subst hc
      exact le_trans (pyStrip_length_le st.cur) hcur
  · exact ⟨hchunks, hcur⟩

lemma paraBufferFlush_inv {cs : Nat} (meta : ChunkMeta) (st : ParaState)
    (h : ParaInv cs st) : ParaInv cs (paraBufferFlush meta st) := by
  obtain ⟨hchunks, hcur⟩ := h
  unfold paraBufferFlush
  split
  · refine ⟨?_, hcur⟩
    intro c hc
    rcases List.mem_append.1 hc with hc | hc
    · exact hchunks c hc
    · rw [List.mem_singleton] at hc
      subst hc
      exact le_trans (pyStrip_length_le st.cur) hcur
  · exact ⟨hchunks, hcur⟩

lemma paraStep_inv (cs ov : Nat) (p : ParaInfo) (st : ParaState)
    (h : ParaInv cs st) : ParaInv cs (paraStep cs ov p st) := by
  have h1 := paraSectionFlush_inv p st h
  unfold paraStep
  by_cases hbig : cs < ((paraSectionFlush p st).cur ++ '\n' :: p.text).length
  · have h2 := paraBufferFlush_inv (paraMeta p) _ h1
    simp only [hbig, if_true]
    by_cases hlong : cs < p.text.length
    · simp only [hlong, if_true]
      refine ⟨?_, by simp⟩
      intro c hc
      rcases List.mem_append.1 hc with hc | hc
      · exact h2.1 c hc
      · obtain ⟨j, t, ht, rfl⟩ := enumChunks_mem _ _ _ hc
        exact splitTextWithOverlap_mem_length cs ov p.text t ht
    · simp only [hlong, if_false]
      exact ⟨h2.1, le_of_not_lt hlong⟩
  · simp only [hbig, if_false]
    refine ⟨h1.1, ?_⟩
    rw [List.length_append, List.length_cons] at hbig
    split <;> simp <;> omega

lemma chunkParagraphGo_len (cs ov : Nat) :
    ∀ content st, ParaInv cs st →
      ∀ c ∈ chunkParagraphGo cs ov content st, c.text.length ≤ cs := by
  intro content
  induction content with
  | nil =>
    intro st h c hc
    unfold chunkParagraphGo at hc
    split at hc
    · rcases List.mem_append.1 hc with hc | hc
      · exact h.1 c hc
      · rw [List.mem_singleton] at hc
        subst hc
        exact le_trans (pyStrip_length_le st.cur) h.2
    · exact h.1 c hc
  | cons p rest ih =>
    intro st h c hc
    exact ih (paraStep cs ov p st) (paraStep_inv cs ov p st h) c hc

lemma chunkSlideGo_len (cs ov : Nat) :
    ∀ content i acc, (∀ c ∈ acc, c.text.length ≤ cs) →
      ∀ c ∈ chunkSlideGo cs ov content i acc, c.text.length ≤ cs := by
  intro content
  induction content with
  | nil => intro i acc hacc c hc; exact hacc c hc
  | cons s rest ih =>
    intro i acc hacc c hc
    by_cases h : s.text.length ≤ cs
    · simp only [chunkSlideGo, h, if_true] at hc
      refine ih _ _ ?_ c hc
      intro c' hc'
      rcases List.mem_append.1 hc' with hc' | hc'
      · exact hacc c' hc'
      · rw [List.mem_singleton] at hc'
        subst hc'
        exact h
    · simp only [chunkSlideGo, h, if_false] at hc
      refine ih _ _ ?_ c hc
      intro c' hc'
      rcases List.mem_append.1 hc' with hc' | hc'
      · exact hacc c' hc'
      · obtain ⟨j, t, ht, rfl⟩ := enumChunks_mem _ _ _ hc'
        exact splitTextWithOverlap_mem_length cs ov s.text t ht

lemma chunkMarkdownGo_len (cs ov : Nat) :
    ∀ content idx c, c ∈ chunkMarkdownGo cs ov content idx →
      c.text.length ≤ cs := by
  intro content
  induction content with
  | nil => intro idx c hc; simp [chunkMarkdownGo] at hc
  | cons sec rest ih =>
    intro idx c hc
    by_cases h : sec.text.length ≤ cs
    · simp only [chunkMarkdownGo, h, if_true, List.mem_cons] at hc
      rcases hc with rfl | hc
      · exact h
      · exact ih _ c hc
    · simp only [chunkMarkdownGo, h, if_false, List.mem_append] at hc
      rcases hc with hc | hc
      · obtain ⟨j, t, ht, rfl⟩ := enumChunks_mem _ _ _ hc
        exact splitTextWithOverlap_mem_length cs ov sec.text t ht
      · exact ih _ c hc

lemma chunkRawText_len (cs ov : Nat) (text : List Char) :
    ∀ c ∈ chunkRawText cs ov text, c.text.length ≤ cs := by
  intro c hc
  obtain ⟨j, t, ht, rfl⟩ := enumChunks_mem _ _ _ hc
  exact splitTextWithOverlap_mem_length cs ov text t ht

/-- C1: every chunk produced by `TextChunker.chunk_document` — for every
document type and chunking policy — has `len(text) ≤ max_chars`.  This holds
with no exception clause: oversized structural units are always passed through
`_split_text_with_overlap`, whose parts are cut at exactly `chunk_size`
characters (`_find_sentence_boundary` never moves the cut, see
`findSentenceBoundary_eq`), and accumulated paragraph buffers only grow while
the `chunk_size` test allows it. -/
theorem chunk_document_respects_max_chars (cs ov : Nat) (doc : ParsedDoc) :
    ∀ c ∈ chunkDocument cs ov doc, c.text.length ≤ cs := by
  cases doc with
  | pdf content => exact chunkPdfGo_len cs ov content 0
  | paragraphs content =>
    exact chunkParagraphGo_len cs ov content _ ⟨by simp, by simp⟩
  | slides content => exact chunkSlideGo_len cs ov content 0 [] (by simp)
  | markdown content => exact chunkMarkdownGo_len cs ov content 0
  | raw text => exact chunkRawText_len cs ov text

/-- The concrete chunk used to instantiate C1. -/
def witC1Chunk : TextChunk :=
  ⟨0, "ab".toList,
    { sectionLabel := "s".toList, page := some 1, chunkType := "page".toList },
    0, 2⟩

theorem chunk_document_respects_max_chars_witness :
    witC1Chunk ∈ chunkDocument 3 1 (ParsedDoc.pdf [⟨"ab".toList, 1, "s".toList⟩])
    ∧ witC1Chunk.text.length ≤ 3 :=
  ⟨by decide,
   chunk_document_respects_max_chars 3 1
     (ParsedDoc.pdf [⟨"ab".toList, 1, "s".toList⟩]) witC1Chunk (by decide)⟩

/-- C3: the overlap-aware splitter loop strictly advances its cursor in every
iteration (`start = max(start + 1, end - overlap)`), terminates — a fuel of
`len(text)` iterations already computes the fixpoint — and, when
`overlap < max_chars`, runs in at most `len(text) / (max_chars - overlap) + 1`
iterations. -/
theorem split_overlap_progress_and_linear_iterations (cs ov : Nat)
    (text : List Char) :
    (∀ start e, start < splitNextStart ov start e)
    ∧ (∀ fuel, text.length ≤ fuel →
        splitLoopAux cs ov text fuel 0 = splitLoopAux cs ov text text.length 0)
    ∧ (ov < cs →
        (splitLoopAux cs ov text text.length 0).2
          ≤ text.length / (cs - ov) + 1) := by
  refine ⟨fun start e => splitNextStart_gt ov start e, ?_, ?_⟩
  · intro fuel hf
    exact splitLoopAux_fuel cs ov text fuel text.length 0 (by omega) (by omega)
  · intro hov
    simpa using splitLoopAux_count_le cs ov text hov text.length 0 (by omega)

theorem split_overlap_progress_and_linear_iterations_witness :
    "abcdefg".toList.length ≤ 8
    ∧ splitLoopAux 3 1 "abcdefg".toList 8 0
        = splitLoopAux 3 1 "abcdefg".toList "abcdefg".toList.length 0
    ∧ 1 < 3
    ∧ (splitLoopAux 3 1 "abcdefg".toList "abcdefg".toList.length 0).2
        ≤ "abcdefg".toList.length / (3 - 1) + 1 :=
  ⟨by decide,
   (split_overlap_progress_and_linear_iterations 3 1 "abcdefg".toList).2.1 8
     (by decide),
   by decide,
   (split_overlap_progress_and_linear_iterations 3 1 "abcdefg".toList).2.2
     (by decide)⟩

/-- C10: an input that already fits in one chunk (`len(text) ≤ max_chars`) is
returned unchanged as the one-element list `[text]`, even when it is empty or
whitespace-only — the splitter's first branch returns before any stripping or
empty-segment dropping can happen. -/
theorem split_small_input_identity (cs ov : Nat) (text : List Char)
    (h : text.length ≤ cs) : splitTextWithOverlap cs ov text = [text] := by
  unfold splitTextWithOverlap
  exact if_pos h

theorem split_small_input_identity_witness :
    "  ".toList.length ≤ 5
    ∧ splitTextWithOverlap 5 2 "  ".toList = ["  ".toList] :=
  ⟨by decide, split_small_input_identity 5 2 "  ".toList (by decide)⟩

/-- C4 (code bug witness): for a pptx document whose first slide is oversized,
`_chunk_slide_content` emits part chunks with `index = len(chunks)` but whole
slides with `index = i` (the slide's position), so one `chunk_document` call
yields the index sequence `[0, 1, 2, 1]` — neither strictly increasing nor
contiguous. -/
theorem slide_chunk_indices_not_contiguous :
    (chunkDocument 3 1 (ParsedDoc.slides
      [⟨"abcdefg".toList, 1, "s1".toList⟩, ⟨"x".toList, 2, "s2".toList⟩])).map
        TextChunk.index = [0, 1, 2, 1] := by
  decide

/-! ### RAG answer post-processing (`rag_service.py`) -/

/-- The scan of `re.findall(r'\[(\d+)\]', answer)` as a character-level state
machine: outside a candidate (`none`) a `[` opens one; inside (`some ds`)
digits accumulate, `]` after at least one digit emits the digit string, and
any other character aborts (a `[` re-opens immediately, exactly as the regex
scan would retry from that position).  `Char.isDigit` is ASCII, matching the
bracketed-integer references the service produces and consumes. -/
def scanCitations : List Char → Option (List Char) → List (List Char)
  | [], _ => []
  | c :: rest, none =>
    if c = '[' then scanCitations rest (some [])
    else scanCitations rest none
  | c :: rest, some ds =>
    if c.isDigit then scanCitations rest (some (ds ++ [c]))
    else if c = ']' ∧ ds ≠ [] then ds :: scanCitations rest none
    else if c = '[' then scanCitations rest (some [])
    else scanCitations rest none

/-- All digit strings of bracketed integer references `[n]` in the answer, in
scan order, duplicates included (`citation_numbers` in the source). -/
def findCitationStrings (answer : List Char) : List (List Char) :=
  scanCitations answer none

/-- Python's `needle in hay` substring test. -/
def containsSub (hay needle : List Char) : Bool :=
  hay.tails.any needle.isPrefixOf

/-- `refusal_keywords` of `RAGService._calculate_confidence`. -/
def refusalKeywords : List (List Char) :=
  ["证据不足".toList, "无法确定".toList, "不能确定".toList,
   "信息不够".toList, "需要更多".toList]

/-- `refusal_flag`: the answer contains a refusal/uncertainty phrase. -/
def hasRefusal (answer : List Char) : Bool :=
  refusalKeywords.any (fun k => containsSub answer k)

/-- One entry of `chunk_details` as consumed by `_calculate_confidence` and
`_extract_citations`: the retrieval score plus the joined chunk/document rows. -/
structure EvidenceDetail where
  score : ℚ
  chunkId : Nat
  documentId : Nat
  chunkText : List Char
  sectionLabel : Option (List Char)
deriving DecidableEq, Repr

/-- `RAGService._calculate_confidence`. -/
def calculateConfidence (details : List EvidenceDetail) (answer : List Char) : ℚ :=
  if details = [] then 0
  else
    let avgScore := (details.map (·.score)).sum / details.length
    let citedCount : Nat := (findCitationStrings answer).length
    let coverage := min ((citedCount : ℚ) / details.length) 1
    let confidence := 0.4 * avgScore + 0.4 * coverage + 0.2
    let confidence := if hasRefusal answer then confidence * 0.5 else confidence
    max 0 (min 1 confidence)

/-- Python `int(num_str)` on a non-empty ASCII digit string. -/
def digitsToNat (ds : List Char) : Nat :=
  ds.foldl (fun n c => n * 10 + (c.toNat - '0'.toNat)) 0

/-- `Citation` of `models/schemas.py`. -/
structure Citation where
  chunk_id : Nat
  document_id : Nat
  sectionLabel : Option (List Char)
  snippet : List Char
deriving DecidableEq, Repr

/-- The snippet rule `chunk_text[:200] + "..." if len(chunk_text) > 200 else
chunk_text`. -/
def pySnippet (t : List Char) : List Char :=
  if 200 < t.length then t.take 200 ++ "...".toList else t

/-- The range guard of `_extract_citations`. -/
def citeInRange (details : List EvidenceDetail) (s : List Char) : Bool :=
  decide (1 ≤ digitsToNat s) && decide (digitsToNat s ≤ details.length)

/-- The `for num_str in set(citation_numbers)` loop of
`RAGService._extract_citations`: an in-range reference is resolved against the
evidence list (the `none` case is the `IndexError` continue branch, shown
unreachable below). -/
def citeLoop (details : List EvidenceDetail) : List (List Char) → List Citation
  | [] => []
  | s :: rest =>
    if citeInRange details s then
      match details[digitsToNat s - 1]? with
      | some d =>
        ⟨d.chunkId, d.documentId, d.sectionLabel, pySnippet d.chunkText⟩
          :: citeLoop details rest
      | none => citeLoop details rest
    else citeLoop details rest

/-- `RAGService._extract_citations`.  Python iterates over
`set(citation_numbers)` in unspecified order; `List.dedup` is one
linearization of that set, and the properties proved about the result do not
depend on the order. -/
def extractCitations (details : List EvidenceDetail) (answer : List Char) :
    List Citation :=
  citeLoop details (findCitationStrings answer).dedup

/-- Modelled from the spec (C2's claimed formula): citation coverage computed
from the number of DISTINCT cited integers, `citation_coverage =
min(distinct_cited_count / evidence_count, 1.0)`, everything else as the code
has it. -/
def specConfidenceDistinct (details : List EvidenceDetail) (answer : List Char) : ℚ :=
  if details = [] then 0
  else
    let avgScore := (details.map (·.score)).sum / details.length
    let distinctCited : Nat := ((findCitationStrings answer).map digitsToNat).dedup.length
    let coverage := min ((distinctCited : ℚ) / details.length) 1
    let confidence := 0.4 * avgScore + 0.4 * coverage + 0.2
    let confidence := if hasRefusal answer then confidence * 0.5 else confidence
    max 0 (min 1 confidence)

/-- Modelled from the spec as amended for C2: identical except that the
coverage numerator is the TOTAL number of bracketed-integer occurrences in the
answer (duplicates and out-of-range references counted). -/
def specConfidenceTotal (details : List EvidenceDetail) (answer : List Char) : ℚ :=
  if details = [] then 0
  else
    let avgRetrievalScore := (details.map (·.score)).sum / details.length
    let citationCoverage :=
      min (((findCitationStrings answer).length : ℚ) / details.length) 1
    let raw := 0.4 * avgRetrievalScore + 0.4 * citationCoverage + 0.2
    let adjusted := if hasRefusal answer then raw * 0.5 else raw
    max 0 (min 1 adjusted)

lemma citeLoop_length (details : List EvidenceDetail) :
    ∀ ss, (citeLoop details ss).length
      = (ss.filter (citeInRange details)).length := by
  intro ss
  induction ss with
  | nil => rfl
  | cons s rest ih =>
    by_cases h : citeInRange details s = true
    · have hnum : digitsToNat s - 1 < details.length := by
        simp only [citeInRange, Bool.and_eq_true, decide_eq_true_eq] at h
        omega
      cases hget : details[digitsToNat s - 1]? with
      | none =>
        rw [List.getElem?_eq_none_iff] at hget
        omega
      | some d => simp [citeLoop, h, hget, List.filter_cons, ih]
    · simp [citeLoop, h, ih, List.filter_cons]

lemma citeLoop_mem (details : List EvidenceDetail) :
    ∀ ss c, c ∈ citeLoop details ss → ∃ d ∈ details,
      c.chunk_id = d.chunkId ∧ c.document_id = d.documentId := by
  intro ss
  induction ss with
  | nil => intro c hc; simp [citeLoop] at hc
  | cons s rest ih =>
    intro c hc
    by_cases h : citeInRange details s = true
    · cases hget : details[digitsToNat s - 1]? with
      | none =>
        simp only [citeLoop, h, if_true, hget] at hc
        exact ih c hc
      | some d =>
        simp only [citeLoop, h, if_true, hget, List.mem_cons] at hc
        rcases hc with rfl | hc
        · exact ⟨d, List.getElem?_mem hget, rfl, rfl⟩
        · exact ih c hc
    · simp only [citeLoop, h, if_false] at hc
      exact ih c hc

/-- C7 (amended): `_extract_citations` produces exactly one Citation per
distinct digit-string reference whose integer value is in
`[1, evidence_count]` (out-of-range and malformed references are dropped),
and every produced Citation is built from an actual evidence item — the
`IndexError` branch is unreachable because the range guard implies the index
is in bounds. -/
theorem extract_citations_one_per_distinct_reference (details : List EvidenceDetail)
    (answer : List Char) :
    (extractCitations details answer).length
      = ((findCitationStrings answer).dedup.filter (citeInRange details)).length
    ∧ ∀ c ∈ extractCitations details answer, ∃ d ∈ details,
        c.chunk_id = d.chunkId ∧ c.document_id = d.documentId :=
  ⟨citeLoop_length details _, citeLoop_mem details _⟩

/-- Evidence list used in the C7 counterexample. -/
def cexC7Details : List EvidenceDetail := [⟨1, 5, 9, "t".toList, none⟩]

/-- C7 (counterexample to the claim as stated): the answer `[1][01]` cites the
single distinct integer `1`, yet extraction returns two Citations — both with
chunk_id 5 — because the code deduplicates digit STRINGS (`"1"` vs `"01"`),
not integers.  This also falsifies "never duplicates a chunk_id". -/
theorem extract_citations_duplicate_chunk_id_cex :
    ((findCitationStrings "[1][01]".toList).map digitsToNat).dedup = [1]
    ∧ (extractCitations cexC7Details "[1][01]".toList).map Citation.chunk_id
        = [5, 5] := by
  constructor <;> decide

theorem extract_citations_one_per_distinct_reference_witness :
    (extractCitations cexC7Details "[1]".toList).length
      = ((findCitationStrings "[1]".toList).dedup.filter (citeInRange cexC7Details)).length
    ∧ (⟨5, 9, none, "t".toList⟩ : Citation) ∈ extractCitations cexC7Details "[1]".toList
    ∧ ∃ d ∈ cexC7Details, (5 : Nat) = d.chunkId ∧ (9 : Nat) = d.documentId :=
  ⟨(extract_citations_one_per_distinct_reference cexC7Details "[1]".toList).1,
   by decide,
   (extract_citations_one_per_distinct_reference cexC7Details "[1]".toList).2
     ⟨5, 9, none, "t".toList⟩ (by decide)⟩

/-- Evidence list used in the C2 counterexample: two items, both with
retrieval score 0. -/
def cexC2Details : List EvidenceDetail :=
  [⟨0, 1, 1, "t".toList, none⟩, ⟨0, 2, 1, "u".toList, none⟩]

/-- Answer used in the C2 counterexample: the same evidence item cited four
times. -/
def cexC2Answer : List Char := "[1][1][1][1]".toList

/-- C2 (counterexample to the claim as stated): for the answer
`[1][1][1][1]` over two evidence items the code counts 4 citation
occurrences (coverage 1) and returns 3/5, while the claimed formula with
`distinct_cited_count = 1` (coverage 1/2) yields 2/5. -/
theorem confidence_distinct_coverage_cex :
    calculateConfidence cexC2Details cexC2Answer = 3/5
    ∧ specConfidenceDistinct cexC2Details cexC2Answer = 2/5
    ∧ calculateConfidence cexC2Details cexC2Answer
        ≠ specConfidenceDistinct cexC2Details cexC2Answer := by
  have h4 : (findCitationStrings cexC2Answer).length = 4 := by decide
  have h1 : ((findCitationStrings cexC2Answer).map digitsToNat).dedup.length
      = 1 := by decide
  have hr : hasRefusal cexC2Answer = false := by decide
  have hsum : (cexC2Details.map (·.score)).sum = 0 := by
    simp [cexC2Details]
  have hlen : cexC2Details.length = 2 := rfl
  have hne : cexC2Details ≠ [] := by simp [cexC2Details]
  refine ⟨?_, ?_, ?_⟩ <;>
    simp only [calculateConfidence, specConfidenceDistinct, if_neg hne, h4, h1,
      hr, hsum, hlen, Bool.false_eq_true, if_false] <;>
    norm_num [min_def, max_def]

/-- The scenario evidence of C2: two items with score 0.8 each. -/
def scenarioC2Details : List EvidenceDetail :=
  [⟨4/5, 1, 1, "a".toList, none⟩, ⟨4/5, 2, 1, "b".toList, none⟩]

/-- Answer used in the C2 scenario: both evidence items cited once. -/
def scenarioC2Answer : List Char := "[1][2]".toList

/-- C2 (amended): the computed confidence equals
`clamp(0.4 * avg_retrieval_score + 0.4 * citation_coverage + 0.2, 0, 1)` with
`citation_coverage = min(total_citation_occurrences / evidence_count, 1.0)`
(the raw `re.findall` match count: duplicates and out-of-range references
included), halved when a refusal phrase occurs; the claim's concrete scenario
(avg score 0.8, both of 2 items cited once, no refusal) still yields 0.92. -/
theorem confidence_formula_total_count :
    (∀ details answer,
      calculateConfidence details answer = specConfidenceTotal details answer)
    ∧ calculateConfidence scenarioC2Details scenarioC2Answer = 23/25 := by
  constructor
  · intro details answer
    rfl
  · have h2 : (findCitationStrings scenarioC2Answer).length = 2 := by decide
    have hr : hasRefusal scenarioC2Answer = false := by decide
    have hsum : (scenarioC2Details.map (·.score)).sum = 8/5 := by
      simp [scenarioC2Details]
      norm_num
    have hlen : scenarioC2Details.length = 2 := rfl
    have hne : scenarioC2Details ≠ [] := by simp [scenarioC2Details]
    simp only [calculateConfidence, if_neg hne, h2, hr, hsum, hlen,
      Bool.false_eq_true, if_false]
    norm_num [min_def, max_def]

/-- C9: the confidence is always in `[0, 1]`, and on a non-empty evidence
list with retrieval scores in `[0, 1]`, an answer that contains a refusal
phrase scores strictly below the same answer without one (same citation
count, all else equal). -/
theorem confidence_bounds_and_refusal_strict_decrease :
    (∀ details answer, 0 ≤ calculateConfidence details answer
      ∧ calculateConfidence details answer ≤ 1)
    ∧ (∀ (details : List EvidenceDetail) (a1 a2 : List Char),
        details ≠ [] →
        (∀ d ∈ details, 0 ≤ d.score ∧ d.score ≤ 1) →
        (findCitationStrings a1).length = (findCitationStrings a2).length →
        hasRefusal a1 = false → hasRefusal a2 = true →
        calculateConfidence details a2 < calculateConfidence details a1) := by
  constructor
  · intro details answer
    unfold calculateConfidence
    split
    · norm_num
    · exact ⟨le_max_left 0 _, max_le (by norm_num) (min_le_left 1 _)⟩
  · intro details a1 a2 hne hsc hcount hr1 hr2
    have hn : 0 < (details.length : ℚ) := by
      have := List.length_pos.2 hne
      exact_mod_cast this
    have hsum0 : 0 ≤ (details.map (·.score)).sum := by
      apply List.sum_nonneg
      intro x hx
      obtain ⟨d, hd, rfl⟩ := List.mem_map.1 hx
      exact (hsc d hd).1
    have hsum1 : (details.map (·.score)).sum ≤ details.length := by
      have h := List.sum_le_card_nsmul (details.map (·.score)) 1 ?_
      · simpa [nsmul_eq_mul] using h
      · intro x hx
        obtain ⟨d, hd, rfl⟩ := List.mem_map.1 hx
        exact (hsc d hd).2
    simp only [calculateConfidence, if_neg hne, hr1, hr2, hcount,
      Bool.false_eq_true, if_false, if_true]
    set avg := (details.map (·.score)).sum / (details.length : ℚ) with havg
    set cov := min (((findCitationStrings a2).length : ℚ) / details.length) 1
      with hcov
    have havg0 : 0 ≤ avg := div_nonneg hsum0 (le_of_lt hn)
    have havg1 : avg ≤ 1 := by
      rw [havg, div_le_one hn]
      exact hsum1
    have hcov0 : 0 ≤ cov :=
      le_min (div_nonneg (Nat.cast_nonneg _) (le_of_lt hn)) zero_le_one
    have hcov1 : cov ≤ 1 := min_le_right _ _
    have hbase0 : (0.2 : ℚ) ≤ 0.4 * avg + 0.4 * cov + 0.2 := by nlinarith
    have hbase1 : 0.4 * avg + 0.4 * cov + 0.2 ≤ 1 := by nlinarith
    have hhalf0 : (0 : ℚ) ≤ (0.4 * avg + 0.4 * cov + 0.2) * 0.5 := by linarith
    have hhalf1 : (0.4 * avg + 0.4 * cov + 0.2) * 0.5 ≤ 1 := by linarith
    rw [min_eq_right hbase1, max_eq_right (by linarith : (0 : ℚ) ≤ 0.4 * avg + 0.4 * cov + 0.2),
      min_eq_right hhalf1, max_eq_right hhalf0]
    linarith

/-- The evidence item used to instantiate C9's strict-decrease conclusion. -/
def witC9Details : List EvidenceDetail := [⟨1/2, 1, 1, "t".toList, none⟩]

theorem confidence_bounds_and_refusal_strict_decrease_witness :
    witC9Details ≠ []
    ∧ (∀ d ∈ witC9Details, 0 ≤ d.score ∧ d.score ≤ 1)
    ∧ (findCitationStrings "ok".toList).length
        = (findCitationStrings "背景 无法确定".toList).length
    ∧ hasRefusal "ok".toList = false
    ∧ hasRefusal "背景 无法确定".toList = true
    ∧ calculateConfidence witC9Details "背景 无法确定".toList
        < calculateConfidence witC9Details "ok".toList := by
  have hs : ∀ d ∈ witC9Details, 0 ≤ d.score ∧ d.score ≤ 1 := by
    intro d hd
    rw [witC9Details, List.mem_singleton] at hd
    subst hd
    norm_num
  refine ⟨by decide, hs, by decide, by decide, by decide, ?_⟩
  exact (confidence_bounds_and_refusal_strict_decrease).2 witC9Details
    "ok".toList "背景 无法确定".toList (by decide) hs (by decide)
    (by decide) (by decide)

/-! ### Vector store adapter (`vectordb.py`) -/

/-- `VectorHit` of `vectordb.py`; metadata is the key/value dictionary
attached to the record. -/
structure VectorHit where
  chunk_id : List Char
  score : ℚ
  metadata : List (List Char × List Char)
  chunk_text : List Char
deriving DecidableEq, Repr

/-- The score conversion of `ChromaAdapter.query`:
`score = max(0, 1 - distance)`. -/
def chromaScore (distance : ℚ) : ℚ := max 0 (1 - distance)

/-- Modelled from the spec: `score = clamp(1 - distance, 0, 1)`. -/
def specClampScore (distance : ℚ) : ℚ := max 0 (min 1 (1 - distance))

/-- The result-conversion loop of `ChromaAdapter.query`: one `VectorHit` per
returned row, with the distance converted by `chromaScore`.  The store returns
parallel `ids`/`distances`/`metadatas`/`documents` lists, modelled by zipping. -/
def chromaQueryHits (ids : List (List Char)) (distances : List ℚ)
    (metadatas : List (List (List Char × List Char)))
    (documents : List (List Char)) : List VectorHit :=
  (ids.zip (distances.zip (metadatas.zip documents))).map
    fun x => ⟨x.1, chromaScore x.2.1, x.2.2.1, x.2.2.2⟩

/-- C8 (counterexample to the claim as stated): the code computes
`max(0, 1 - distance)` with no upper clamp, so a negative distance produces a
score above 1: at `distance = -1` the hit score is `2`, while the claimed
`clamp(1 - distance, 0, 1)` is `1`. -/
theorem chroma_score_not_clamped_above_cex :
    chromaScore (-1) = 2
    ∧ specClampScore (-1) = 1
    ∧ ¬ chromaScore (-1) ≤ 1
    ∧ (chromaQueryHits [['a']] [(-1 : ℚ)] [[]] [['t']]).map VectorHit.score
        = [2] := by
  refine ⟨?_, ?_, ?_, ?_⟩ <;>
    norm_num [chromaScore, specClampScore, chromaQueryHits, max_def, min_def,
      List.zip_cons_cons]

/-- C8 (amended): the hit score is `max(0, 1 - distance)`; it is always
nonnegative, and whenever the store's distance is nonnegative (as for cosine
distance) it coincides with `clamp(1 - distance, 0, 1)` and lies in `[0, 1]` —
in particular every hit built by the query conversion from nonnegative
distances has its score in `[0, 1]`. -/
theorem chroma_score_clamped_for_nonneg_distance :
    (∀ d : ℚ, 0 ≤ chromaScore d)
    ∧ (∀ d : ℚ, 0 ≤ d → chromaScore d ≤ 1 ∧ chromaScore d = specClampScore d)
    ∧ (∀ ids ds ms docs, (∀ x ∈ ds, (0 : ℚ) ≤ x) →
        ∀ h ∈ chromaQueryHits ids ds ms docs, 0 ≤ h.score ∧ h.score ≤ 1) := by
  have h1 : ∀ d : ℚ, 0 ≤ chromaScore d := fun d => le_max_left 0 _
  have h2 : ∀ d : ℚ, 0 ≤ d → chromaScore d ≤ 1 ∧ chromaScore d = specClampScore d := by
    intro d hd
    constructor
    · exact max_le (by norm_num) (by linarith)
    · unfold chromaScore specClampScore
      rw [min_eq_right (by linarith : (1 : ℚ) - d ≤ 1)]
  refine ⟨h1, h2, ?_⟩
  intro ids ds ms docs hds h hh
  obtain ⟨x, hx, rfl⟩ := List.mem_map.1 hh
  have hxd : x.2.1 ∈ ds := (List.of_mem_zip (List.of_mem_zip hx).2).1
  exact ⟨h1 x.2.1, (h2 x.2.1 (hds x.2.1 hxd)).1⟩

theorem chroma_score_clamped_for_nonneg_distance_witness :
    (0 : ℚ) ≤ chromaScore (1/2)
    ∧ ((0 : ℚ) ≤ 1/2
        ∧ chromaScore (1/2) ≤ 1 ∧ chromaScore (1/2) = specClampScore (1/2))
    ∧ (∀ x ∈ [(1/2 : ℚ)], (0 : ℚ) ≤ x)
    ∧ ∀ h ∈ chromaQueryHits [['a']] [(1/2 : ℚ)] [[]] [['t']],
        0 ≤ h.score ∧ h.score ≤ 1 := by
  have hmem : ∀ x ∈ [(1/2 : ℚ)], (0 : ℚ) ≤ x := by
    intro x hx
    rw [List.mem_singleton] at hx
    subst hx
    norm_num
  exact ⟨(chroma_score_clamped_for_nonneg_distance).1 (1/2),
    ⟨by norm_num,
     (chroma_score_clamped_for_nonneg_distance).2.1 (1/2) (by norm_num)⟩,
    hmem,
    (chroma_score_clamped_for_nonneg_distance).2.2 [['a']] [(1/2 : ℚ)] [[]]
      [['t']] hmem⟩

/-! ### Answer generation and QA-log persistence (`rag_service.py`) -/

/-- A persisted `QALog` row. -/
structure QALogRec where
  user_id : Nat
  course_id : Nat
  question : List Char
  answer : List Char
  citations : List Citation
  confidence : ℚ
deriving DecidableEq, Repr

/-- The response dictionary of `ask_question` (whole-response mode). -/
structure AskResponse where
  qa_id : Option Nat
  answer : List Char
  confidence : ℚ
  citations : List Citation
  followups : List (List Char)
deriving DecidableEq, Repr

/-- `RAGService._generate_followups`: heuristic follow-up questions from
question/answer keyword matches, truncated to at most 3. -/
def generateFollowups (question answer : List Char) : List (List Char) :=
  let fromQuestion :=
    if containsSub question "什么是".toList || containsSub question "定义".toList then
      ["这个概念有哪些应用？".toList, "相关的实验有哪些？".toList]
    else if containsSub question "如何".toList || containsSub question "怎样".toList then
      ["这种方法的原理是什么？".toList, "有什么注意事项？".toList]
    else if containsSub question "为什么".toList then
      ["这个现象的应用有哪些？".toList, "相关的理论发展历史如何？".toList]
    else []
  let withAnswer := fromQuestion
    ++ (if containsSub answer "实验".toList then ["这个实验的具体步骤是什么？".toList] else [])
    ++ (if containsSub answer "公式".toList || containsSub answer "方程".toList then
          ["这个公式如何推导？".toList] else [])
    ++ (if containsSub answer "应用".toList then ["还有哪些实际应用？".toList] else [])
  withAnswer.take 3

/-- The fixed clarifying prompts of `_create_low_confidence_response`. -/
def lowConfidenceFollowups : List (List Char) :=
  ["需要查看哪些相关资料？".toList, "这个问题的关键概念是什么？".toList]

/-- `RAGService._create_low_confidence_response` (`warning_answer` is the
answer unchanged, `qa_id` is `None`). -/
def createLowConfidenceResponse (question answer : List Char) (confidence : ℚ)
    (citations : List Citation) : AskResponse :=
  { qa_id := none, answer := answer, confidence := confidence,
    citations := citations, followups := lowConfidenceFollowups }

/-- `RAGService._generate_answer` after the LLM call: `answer` stands for the
generated text, `db` for the QA-log table, and a committed row's id for its
position.  Below threshold the low-confidence response is returned and nothing
is persisted; otherwise a `QALog` row is committed. -/
def generateAnswer (threshold : ℚ) (db : List QALogRec) (userId courseId : Nat)
    (question : List Char) (chunkDetails : List EvidenceDetail)
    (answer : List Char) : AskResponse × List QALogRec :=
  let confidence := calculateConfidence chunkDetails answer
  let citations := extractCitations chunkDetails answer
  let followups := generateFollowups question answer
  if confidence < threshold then
    (createLowConfidenceResponse question answer confidence citations, db)
  else
    ({ qa_id := some db.length, answer := answer, confidence := confidence,
       citations := citations, followups := followups },
     db ++ [⟨userId, courseId, question, answer, citations, confidence⟩])

/-- An event yielded by `_generate_answer_stream`. -/
inductive StreamEvent where
  | delta (text : List Char)
  | final (qa_id : Nat) (confidence : ℚ) (citations : List Citation)
deriving DecidableEq, Repr

/-- `RAGService._generate_answer_stream` on the exception-free path:
`deltas` stands for the streamed LLM text pieces; the accumulated full answer
is post-processed and a `QALog` row is ALWAYS committed — the stream path has
no confidence-threshold check. -/
def generateAnswerStream (db : List QALogRec) (userId courseId : Nat)
    (question : List Char) (chunkDetails : List EvidenceDetail)
    (deltas : List (List Char)) : List StreamEvent × List QALogRec :=
  let fullAnswer := deltas.flatten
  let confidence := calculateConfidence chunkDetails fullAnswer
  let citations := extractCitations chunkDetails fullAnswer
  (deltas.map StreamEvent.delta ++ [.final db.length confidence citations],
   db ++ [⟨userId, courseId, question, fullAnswer, citations, confidence⟩])

/-- `settings.CONFIDENCE_THRESHOLD` (`config.py`). -/
def CONFIDENCE_THRESHOLD : ℚ := 0.45

/-- C6 (counterexample to the claim as stated): a streaming run whose
confidence (1/5) is below the configured threshold (0.45) still persists a
QA-log row — the stream path has no low-confidence branch. -/
theorem streaming_low_confidence_persists_cex :
    calculateConfidence cexC2Details "好".toList = 1/5
    ∧ calculateConfidence cexC2Details "好".toList < CONFIDENCE_THRESHOLD
    ∧ (generateAnswerStream [] 1 1 "q".toList cexC2Details ["好".toList]).2
        ≠ [] := by
  have h0 : (findCitationStrings "好".toList).length = 0 := by decide
  have hr : hasRefusal "好".toList = false := by decide
  have hsum : (cexC2Details.map (·.score)).sum = 0 := by simp [cexC2Details]
  have hlen : cexC2Details.length = 2 := rfl
  have hne : cexC2Details ≠ [] := by simp [cexC2Details]
  have hc : calculateConfidence cexC2Details "好".toList = 1/5 := by
    simp only [calculateConfidence, if_neg hne, h0, hr, hsum, hlen,
      Bool.false_eq_true, if_false]
    norm_num [min_def, max_def]
  refine ⟨hc, ?_, ?_⟩
  · rw [hc]
    norm_num [CONFIDENCE_THRESHOLD]
  · simp [generateAnswerStream]

/-- C6 (amended): in whole-response mode a below-threshold confidence returns
the generated answer unchanged, persists nothing (the QA-log table is exactly
as before), reports no `qa_id` and replaces the follow-ups with the fixed
clarifying prompts; in streaming mode, however, the QA-log row is always
committed, threshold or not. -/
theorem low_confidence_soft_warning :
    (∀ threshold db userId courseId question details answer,
      calculateConfidence details answer < threshold →
        (generateAnswer threshold db userId courseId question details answer).2 = db
        ∧ (generateAnswer threshold db userId courseId question details answer).1.answer
            = answer
        ∧ (generateAnswer threshold db userId courseId question details answer).1.qa_id
            = none
        ∧ (generateAnswer threshold db userId courseId question details answer).1.followups
            = lowConfidenceFollowups)
    ∧ (∀ db userId courseId question details deltas,
        (generateAnswerStream db userId courseId question details deltas).2
          = db ++ [⟨userId, courseId, question, deltas.flatten,
              extractCitations details deltas.flatten,
              calculateConfidence details deltas.flatten⟩]) := by
  constructor
  · intro threshold db userId courseId question details answer h
    unfold generateAnswer
    rw [if_pos h]
    exact ⟨rfl, rfl, rfl, rfl⟩
  · intro db userId courseId question details deltas
    rfl

theorem low_confidence_soft_warning_witness :
    calculateConfidence cexC2Details "好".toList < CONFIDENCE_THRESHOLD
    ∧ (generateAnswer CONFIDENCE_THRESHOLD [] 1 1 "q".toList cexC2Details
        "好".toList).2 = []
    ∧ (generateAnswer CONFIDENCE_THRESHOLD [] 1 1 "q".toList cexC2Details
        "好".toList).1.qa_id = none := by
  have h0 : (findCitationStrings "好".toList).length = 0 := by decide
  have hr : hasRefusal "好".toList = false := by decide
  have hsum : (cexC2Details.map (·.score)).sum = 0 := by simp [cexC2Details]
  have hlen : cexC2Details.length = 2 := rfl
  have hne : cexC2Details ≠ [] := by simp [cexC2Details]
  have hlt : calculateConfidence cexC2Details "好".toList < CONFIDENCE_THRESHOLD := by
    simp only [calculateConfidence, if_neg hne, h0, hr, hsum, hlen,
      Bool.false_eq_true, if_false, CONFIDENCE_THRESHOLD]
    norm_num [min_def, max_def]
  have h := (low_confidence_soft_warning).1 CONFIDENCE_THRESHOLD [] 1 1
    "q".toList cexC2Details "好".toList hlt
  exact ⟨hlt, h.1, h.2.2.1⟩

/-! ### Ingestion background job (`kb_service.py`, `_ingest_document_task`) -/

/-- `IngestTask.status` values. -/
inductive TaskStatus where
  | queued | processing | done | failed
deriving DecidableEq, Repr

/-- `Document.status` values touched by the ingestion job. -/
inductive DocStatus where
  | uploaded | ready | failed
deriving DecidableEq, Repr

/-- The task row's mutable fields. -/
structure TaskState where
  status : TaskStatus
  progress : ℚ
  errorMessage : Option (List Char)
deriving DecidableEq, Repr

/-- One committed database state during the job: the task row plus the owning
document row's status (`none` when the document row does not exist). -/
structure IngestSnapshot where
  task : TaskState
  doc : Option DocStatus
deriving DecidableEq, Repr

/-- The environment of one `_ingest_document_task` run: whether the task and
document rows exist, and the outcome of each fallible step (`some msg` models
the step raising with message `msg`; parsing, batch embedding and the
chunk/vector persistence including the vector-store upsert can raise). -/
structure IngestEnv where
  taskFound : Bool
  docFound : Bool
  parseError : Option (List Char)
  embedError : Option (List Char)
  upsertError : Option (List Char)
deriving DecidableEq, Repr

/-- The `except` handler: commit the failed task (progress unchanged, message
captured), then — only when a document row is bound — commit the document's
failed status. -/
def failTrace (p : ℚ) (doc : Option DocStatus) (msg : List Char) :
    List IngestSnapshot :=
  ⟨⟨.failed, p, some msg⟩, doc⟩ ::
    (match doc with
     | some _ => [⟨⟨.failed, p, some msg⟩, some .failed⟩]
     | none => [])

/-- `KBService._ingest_document_task` as the sequence of committed
task/document states of one run.  A missing task row returns with no commits;
a missing document row raises `文档不存在` after the first commit. -/
def ingestDocumentTask (env : IngestEnv) : List IngestSnapshot :=
  if env.taskFound = false then []
  else
    let d0 : Option DocStatus := if env.docFound then some .uploaded else none
    let c1 : IngestSnapshot := ⟨⟨.processing, 0.1, none⟩, d0⟩
    if env.docFound = false then
      c1 :: failTrace 0.1 none "文档不存在".toList
    else
      match env.parseError with
      | some msg => c1 :: failTrace 0.1 d0 msg
      | none =>
        let c2 : IngestSnapshot := ⟨⟨.processing, 0.3, none⟩, d0⟩
        let c3 : IngestSnapshot := ⟨⟨.processing, 0.5, none⟩, d0⟩
        match env.embedError with
        | some msg => [c1, c2, c3] ++ failTrace 0.5 d0 msg
        | none =>
          let c4 : IngestSnapshot := ⟨⟨.processing, 0.7, none⟩, d0⟩
          match env.upsertError with
          | some msg => [c1, c2, c3, c4] ++ failTrace 0.7 d0 msg
          | none => [c1, c2, c3, c4, ⟨⟨.done, 1, none⟩, some .ready⟩]

/-- The terminal task states. -/
def TaskStatus.isTerminal : TaskStatus → Bool
  | .done => true
  | .failed => true
  | _ => false

/-- The first exception raised during the run, if any (parse, then embed,
then persist/upsert — later steps are not reached after a failure). -/
def firstIngestError (env : IngestEnv) : Option (List Char) :=
  env.parseError <|> env.embedError <|> env.upsertError

/-- C5: over every run of the ingestion job, the committed task progress is
non-decreasing; once the task is terminal its row never changes again (the
only later commit touches the document row); the exception-free run with both
rows present commits exactly the milestones 0.1, 0.3, 0.5, 0.7, 1.0 and ends
`done` with the document `ready`; and any raising step leaves the task
`failed` with the message captured and the document status `failed`. -/
theorem ingest_task_lifecycle (env : IngestEnv) :
    List.Chain' (fun a b => a.task.progress ≤ b.task.progress)
      (ingestDocumentTask env)
    ∧ List.Pairwise (fun a b => a.task.status.isTerminal = true → b.task = a.task)
      (ingestDocumentTask env)
    ∧ (env.taskFound = true → env.docFound = true → firstIngestError env = none →
        (ingestDocumentTask env).map (fun s => s.task.progress)
          = [0.1, 0.3, 0.5, 0.7, 1]
        ∧ (ingestDocumentTask env).getLast?
            = some ⟨⟨.done, 1, none⟩, some .ready⟩)
    ∧ (∀ msg, env.taskFound = true → env.docFound = true →
        firstIngestError env = some msg →
        ∃ p, (ingestDocumentTask env).getLast?
          = some ⟨⟨.failed, p, some msg⟩, some .failed⟩) := by
  obtain ⟨tf, df, pe, ee, ue⟩ := env
  cases tf with
  | false =>
    refine ⟨by simp [ingestDocumentTask], by simp [ingestDocumentTask], ?_, ?_⟩
    · intro h
      simp at h
    · intro msg h
      simp at h
  | true =>
    cases df with
    | false =>
      refine ⟨?_, ?_, ?_, ?_⟩
      · norm_num [ingestDocumentTask, failTrace, List.chain'_cons]
      · simp [ingestDocumentTask, failTrace, List.pairwise_cons,
          TaskStatus.isTerminal]
      · intro _ h
        simp at h
      · intro msg _ h
        simp at h
    | true =>
      cases pe with
      | some m =>
        refine ⟨?_, ?_, ?_, ?_⟩
        · norm_num [ingestDocumentTask, failTrace, List.chain'_cons]
        · simp [ingestDocumentTask, failTrace, List.pairwise_cons,
            TaskStatus.isTerminal]
        · intro _ _ h
          simp [firstIngestError] at h
        · intro msg _ _ h
          simp only [firstIngestError, Option.some_orElse] at h
          injection h with h
          subst h
          exact ⟨0.1, rfl⟩
      | none =>
        cases ee with
        | some m =>
          refine ⟨?_, ?_, ?_, ?_⟩
          · norm_num [ingestDocumentTask, failTrace, List.chain'_cons]
          · simp [ingestDocumentTask, failTrace, List.pairwise_cons,
              TaskStatus.isTerminal]
          · intro _ _ h
            simp [firstIngestError] at h
          · intro msg _ _ h
            simp only [firstIngestError, Option.none_orElse,
              Option.some_orElse] at h
            injection h with h
            subst h
            exact ⟨0.5, rfl⟩
        | none =>
          cases ue with
          | some m =>
            refine ⟨?_, ?_, ?_, ?_⟩
            · norm_num [ingestDocumentTask, failTrace, List.chain'_cons]
            · simp [ingestDocumentTask, failTrace, List.pairwise_cons,
                TaskStatus.isTerminal]
            · intro _ _ h
              simp [firstIngestError] at h
            · intro msg _ _ h
              simp only [firstIngestError, Option.none_orElse] at h
              injection h with h
              subst h
              exact ⟨0.7, rfl⟩
          | none =>
            refine ⟨?_, ?_, ?_, ?_⟩
            · norm_num [ingestDocumentTask, List.chain'_cons]
            · simp [ingestDocumentTask, List.pairwise_cons,
                TaskStatus.isTerminal]
            · intro _ _ _
              exact ⟨rfl, rfl⟩
            · intro msg _ _ h
              simp [firstIngestError] at h

theorem ingest_task_lifecycle_witness :
    (IngestEnv.mk true true (some "boom".toList) none none).taskFound = true
    ∧ (IngestEnv.mk true true (some "boom".toList) none none).docFound = true
    ∧ firstIngestError (IngestEnv.mk true true (some "boom".toList) none none)
        = some "boom".toList
    ∧ ∃ p, (ingestDocumentTask
        (IngestEnv.mk true true (some "boom".toList) none none)).getLast?
          = some ⟨⟨.failed, p, some "boom".toList⟩, some .failed⟩ :=
  ⟨rfl, rfl, rfl,
   (ingest_task_lifecycle (IngestEnv.mk true true (some "boom".toList) none none)).2.2.2
     "boom".toList rfl rfl rfl⟩

end YuanziWuli
